import Mathlib

/-!
Verification of the Hex assembler (`src/asm.cpp`) and simulator
(`src/sim.cpp`) against the natural-language specification.

The C++ sources are shallowly embedded: pure helper functions become Lean
functions on `ℕ`/`ℤ`, the mutable directive vector of the assembler becomes
a `List Directive` threaded through the passes, and the simulator's
register/memory state becomes a `PState` record with an explicit step
function.  Machine integers are modelled as `ℕ` (unsigned, with `% 2^32`
where C++ wraps) and `ℤ` (for `int` values such as immediates and
label displacements, where the program never overflows in the scenarios
considered).  Fallible or undefined behaviour (out-of-bounds array
indexing, dereferencing the null `Label*` that `std::map::operator[]`
default-inserts for an unknown key, runtime errors thrown by the
interpreter) is modelled with `Option`/`Except`.

The opcode/sub-opcode/syscall enumerations live in `Instructions.hpp` /
`Hex.hpp`, which are not among the sources; where a definition needs their
numeric values they are modelled from the spec (see the doc comments of
`instrOpc`, `oprInstrOpc` and the syscall dispatch).
-/

namespace Hex

/-! ## Nibble counting (`numNibbles` in asm.cpp) -/

/-- The digit-counting loop inside `numNibbles` (asm.cpp:294-299), with
a structural fuel argument: starting from `n = 1`, shift the
(nonnegative) value right by 4 bits until it is below 16, incrementing
`n` each time.  Each iteration divides the value by 16, so any fuel of at
least the value itself runs the loop to completion. -/
def nibblesNatGo : ℕ → ℕ → ℕ
  | 0, _ => 1
  | fuel + 1, n => if n < 16 then 1 else nibblesNatGo fuel (n / 16) + 1

/-- The loop of `numNibbles` on a nonnegative value, run with enough fuel. -/
def nibblesNat (n : ℕ) : ℕ :=
  nibblesNatGo n n

/-- `numNibbles` (asm.cpp:287-300): number of 4-bit immediates required to
represent the value.  `0` needs one nibble; a negative value is first
replaced by its bitwise complement `~v = -v - 1`. -/
def numNibbles (value : ℤ) : ℕ :=
  if value = 0 then 1
  else if value < 0 then nibblesNat (-value - 1).toNat
  else nibblesNat value.toNat

/-- The search loop of `instrLen` (asm.cpp:306-312), with explicit fuel.
For 32-bit values `numNibbles` is at most 8, so starting from length 1 the
C++ loop performs at most 7 increments; fuel 8 therefore reproduces it
exactly on all inputs that a 32-bit run can produce. -/
def instrLenGo (labelOffset byteOffset : ℤ) : ℕ → ℕ → ℕ
  | len, 0 => len
  | len, fuel + 1 =>
    if len < numNibbles (labelOffset - byteOffset - (len : ℤ)) then
      instrLenGo labelOffset byteOffset (len + 1) fuel
    else len

/-- `instrLen` (asm.cpp:306-312): length of an instruction with a relative
label reference, found by increasing the length until it can hold the
displacement measured past itself. -/
def instrLen (labelOffset byteOffset : ℤ) : ℕ :=
  instrLenGo labelOffset byteOffset 1 8

/-! ## Tokens and opcode enumerations -/

/-- `Token` (asm.cpp:45-71). `NUMBER` carries the decimal value lexed with
it and `IDENTIFIER` the identifier text, mirroring the lexer's `value` and
`identifier` fields. -/
inductive Token where
  | NUMBER (n : ℕ)
  | MINUS
  | DATA
  | PROC
  | FUNC
  | LDAM
  | LDBM
  | STAM
  | LDAC
  | LDBC
  | LDAP
  | LDAI
  | LDBI
  | STAI
  | BR
  | BRZ
  | BRN
  | BRB
  | SVC
  | ADD
  | SUB
  | OPR
  | IDENTIFIER (s : String)
  | NONE
  | END_OF_FILE
deriving DecidableEq, Repr

/-- The instruction enumeration `Instr` shared by assembler and simulator. -/
inductive Instr where
  | LDAM | LDBM | STAM | LDAC | LDBC | LDAP | LDAI | LDBI
  | STAI | BR | BRZ | BRN | PFIX | NFIX | OPR
deriving DecidableEq, Repr

/-- Modelled from the spec: `Instr`'s numeric values live in
`Instructions.hpp`, which is not among the sources.  Spec §4.4 fixes
`PFIX = 0xD`, `NFIX = 0xC` and tabulates `LDAM=0 LDBM=1 LDAC=2 LDBC=3
LDAP=4 LDAI=5 LDBI=6 STAI=7 BR=8 BRZ=9 BRN=10 STAM=11 OPR=15`. -/
def instrOpc : Instr → ℕ
  | .LDAM => 0
  | .LDBM => 1
  | .LDAC => 2
  | .LDBC => 3
  | .LDAP => 4
  | .LDAI => 5
  | .LDBI => 6
  | .STAI => 7
  | .BR => 8
  | .BRZ => 9
  | .BRN => 10
  | .STAM => 11
  | .NFIX => 12
  | .PFIX => 13
  | .OPR => 15

/-- The OPR sub-opcode enumeration `OprInstr` from the shared header. -/
inductive OprInstr where
  | BRB | SVC | ADD | SUB
deriving DecidableEq, Repr

/-- Modelled from the spec: the numeric values of `OprInstr` live in the
shared header, not among the sources; spec §3 and §4.4 list the
sub-opcodes in the order `BRB, SVC, ADD, SUB`, giving 0..3. -/
def oprInstrOpc : OprInstr → ℕ
  | .BRB => 0
  | .SVC => 1
  | .ADD => 2
  | .SUB => 3

/-- `tokenToInstr` (asm.cpp:105-123); the C++ throws on any other token,
modelled as `none`. -/
def tokenToInstr : Token → Option Instr
  | .LDAM => some .LDAM
  | .LDBM => some .LDBM
  | .STAM => some .STAM
  | .LDAC => some .LDAC
  | .LDBC => some .LDBC
  | .LDAP => some .LDAP
  | .LDAI => some .LDAI
  | .LDBI => some .LDBI
  | .STAI => some .STAI
  | .BR => some .BR
  | .BRZ => some .BRZ
  | .BRN => some .BRN
  | .OPR => some .OPR
  | _ => none

/-- `tokenToOprInstr` (asm.cpp:125-134); throws on other tokens. -/
def tokenToOprInstr : Token → Option OprInstr
  | .BRB => some .BRB
  | .SVC => some .SVC
  | .ADD => some .ADD
  | .SUB => some .SUB
  | _ => none

/-! ## Directives -/

/-- The directive hierarchy (asm.cpp:319-432) as a sum.  `label` and
`instrLabel` carry their mutable `labelValue` field (uninitialised in the
C++ constructors; the embedding materialises it as `0` and the layout pass
overwrites it).  `instrOp` stores the checked sub-opcode, since its C++
constructor rejects every other token (asm.cpp:418-425). -/
inductive Directive where
  | data (value : ℤ)
  | func (name : String)
  | proc (name : String)
  | label (name : String) (labelValue : ℤ)
  | instrImm (token : Token) (immValue : ℤ)
  | instrLabel (token : Token) (name : String) (labelValue : ℤ)
  | instrOp (sub : OprInstr)
deriving DecidableEq, Repr

/-- `getSize` of each directive class: `Data` is always one word,
markers and labels are zero-width, `InstrImm`/`InstrLabel` use
`numNibbles` of their (current) value with the forced-NFIX exception, and
`InstrOp` is one byte (asm.cpp:335,347,359,371,389-391,405-407,427). -/
def Directive.getSize : Directive → ℕ
  | .data _ => 4
  | .func _ => 0
  | .proc _ => 0
  | .label _ _ => 0
  | .instrImm _ v => if v < 0 ∧ numNibbles v = 1 then 2 else numNibbles v
  | .instrLabel _ _ lv => if lv < 0 ∧ numNibbles lv = 1 then 2 else numNibbles lv
  | .instrOp _ => 1

/-- `getValue` of each directive class (asm.cpp:336,348,360,379,392,408,428). -/
def Directive.getValue : Directive → ℤ
  | .data v => v
  | .func _ => 0
  | .proc _ => 0
  | .label _ lv => lv
  | .instrImm _ v => v
  | .instrLabel _ _ lv => lv
  | .instrOp sub => (oprInstrOpc sub : ℤ)

/-- Whether the directive is a `Data` (token test `== Token::DATA`). -/
def Directive.isData : Directive → Bool
  | .data _ => true
  | _ => false

/-- `operandIsLabel` is true exactly for `InstrLabel` (asm.cpp:404). -/
def Directive.operandIsLabel : Directive → Bool
  | .instrLabel _ _ _ => true
  | _ => false

/-! ## Label resolution (`createLabelMap`, `resolveLabels`) -/

/-- Helper for `createLabelMap`: index of the last `Label` directive with
the given name, scanning from position `i`.  `std::map::operator[]`
overwrites on duplicate insertion, so the last occurrence wins. -/
def labelIdxGo : List Directive → ℕ → String → Option ℕ
  | [], _, _ => none
  | d :: ds, i, name =>
    match labelIdxGo ds (i + 1) name with
    | some j => some j
    | none =>
      match d with
      | .label n _ => if n = name then some i else none
      | _ => none

/-- `createLabelMap` (asm.cpp:516-526): map from label names to the
(position of the) `Label` directive carrying that name.  The C++ map holds
a pointer into the directive vector; the embedding holds the index, and
readers fetch the value stored at that index in the *current* state of the
vector, which is exactly what the aliasing pointer sees. -/
def createLabelMap (prog : List Directive) : String → Option ℕ :=
  fun name => labelIdxGo prog 0 name

/-- Padding inserted before a `Data` directive:
`if (byteOffset & 0x3) byteOffset += 4 - (byteOffset & 0x3)`
(asm.cpp:541-543, 588-593). -/
def padAmt (off : ℕ) : ℕ :=
  if off % 4 = 0 then 0 else 4 - off % 4

/-- One iteration of the `for` loop body of `resolveLabels`
(asm.cpp:538-562), walking the still-unprocessed suffix `rest` while
`done` holds the already-updated prefix and `off` the running
`byteOffset`.  The full current state of the directive vector is
`done ++ rest`, and a label-map index `j` is read from exactly that list,
so a backward reference sees the value set earlier in this pass and a
forward reference sees the previous pass's value.  An unknown label name
makes `labelMap[...]` default-insert a null `Label*` whose `getValue()`
call is undefined behaviour: modelled as `none`.  The result is the
updated vector and the final `byteOffset` of the pass. -/
def resolvePassGo (lm : String → Option ℕ) :
    List Directive → ℕ → List Directive → Option (List Directive × ℕ)
  | done, off, [] => some (done, off)
  | done, off, d :: rest =>
    match d with
    | .data v =>
      resolvePassGo lm (done ++ [.data v]) (off + padAmt off + 4) rest
    | .label n _ =>
      resolvePassGo lm (done ++ [.label n (off : ℤ)]) off rest
    | .instrLabel tk n _ =>
      match lm n with
      | none => none
      | some j =>
        match (done ++ d :: rest).get? j with
        | some (.label _ lv) =>
          let d' : Directive := .instrLabel tk n (lv - (off : ℤ) - (instrLen lv (off : ℤ) : ℤ))
          resolvePassGo lm (done ++ [d']) (off + d'.getSize) rest
        | _ => none
    | .func n =>
      resolvePassGo lm (done ++ [.func n]) (off + (Directive.func n).getSize) rest
    | .proc n =>
      resolvePassGo lm (done ++ [.proc n]) (off + (Directive.proc n).getSize) rest
    | .instrImm tk v =>
      resolvePassGo lm (done ++ [.instrImm tk v]) (off + (Directive.instrImm tk v).getSize) rest
    | .instrOp sub =>
      resolvePassGo lm (done ++ [.instrOp sub]) (off + (Directive.instrOp sub).getSize) rest

/-- One full pass of the loop body of `resolveLabels` over the program. -/
def resolvePass (lm : String → Option ℕ) (prog : List Directive) :
    Option (List Directive × ℕ) :=
  resolvePassGo lm [] 0 prog

/-- The `while (lastSize != byteOffset)` loop of `resolveLabels`
(asm.cpp:531-563), with explicit fuel: run passes until the total size of
two consecutive passes agrees.  `lastSize` starts at `-1` and `byteOffset`
at `0`, hence the `ℤ`-valued comparands. -/
def resolveLabelsGo (lm : String → Option ℕ) :
    ℕ → ℤ → ℤ → List Directive → Option (List Directive)
  | 0, _, _, _ => none
  | fuel + 1, lastSize, byteOffset, prog =>
    if lastSize = byteOffset then some prog
    else
      match resolvePass lm prog with
      | none => none
      | some (prog', total) =>
        resolveLabelsGo lm fuel byteOffset (total : ℤ) prog'

/-- `resolveLabels` (asm.cpp:529-564): iteratively update label values
until the program size does not change.  `none` means either the
undefined behaviour on an unknown label, or that the loop did not
converge within `fuel` iterations. -/
def resolveLabels (fuel : ℕ) (prog : List Directive) : Option (List Directive) :=
  resolveLabelsGo (createLabelMap prog) fuel (-1) 0 prog

/-! ## Binary emission (`emitProgramBin`) -/

/-- The `k`-th little-endian byte of a (possibly negative) 32-bit value:
arithmetic shift right by `8k`, then the low 8 bits. -/
def byteOfInt (v : ℤ) (k : ℕ) : ℕ :=
  ((v.fdiv (2 ^ (8 * k))).emod 256).toNat

/-- The four little-endian bytes a `Data` word writes
(`outputFile.write(reinterpret_cast<const char*>(&value), size)`,
asm.cpp:596). -/
def leBytes4 (v : ℤ) : List ℕ :=
  [byteOfInt v 0, byteOfInt v 1, byteOfInt v 2, byteOfInt v 3]

/-- The `i`-th nibble of a value: `(value >> (i * 4)) & 0xF`
(arithmetic shift on the C++ `int`). -/
def nibAt (v : ℤ) (i : ℕ) : ℕ :=
  ((v.fdiv (2 ^ (4 * i))).emod 16).toNat

/-- The opcode number the emitter places in the high nibble of the final
byte of a directive: `tokenToInstrOpc(directive->getToken())` for
instructions, `Instr::OPR` for an `InstrOp` (whose stored token is
`Token::OPR`). -/
def Directive.tokenOpc : Directive → Option ℕ
  | .instrImm tk _ => (tokenToInstr tk).map instrOpc
  | .instrLabel tk _ _ => (tokenToInstr tk).map instrOpc
  | .instrOp _ => some (instrOpc .OPR)
  | _ => none

/-- The bytes `emitProgramBin` writes for one directive when the running
offset is `off` (asm.cpp:583-615): alignment padding plus the word for
`Data`; for an instruction of size `s > 0`, `s - 1` PFIX/NFIX bytes
(NFIX when the value is negative) carrying nibbles `s-1 .. 1` followed by
the opcode byte carrying nibble `0`; nothing for zero-sized directives. -/
def emitDir (off : ℕ) (d : Directive) : Option (List ℕ) :=
  if d.isData then some (List.replicate (padAmt off) 0 ++ leBytes4 d.getValue)
  else if d.getSize = 0 then some []
  else
    match d.tokenOpc with
    | none => none
    | some opc =>
      let v := d.getValue
      let fix := if v < 0 then instrOpc .NFIX else instrOpc .PFIX
      some ((List.range (d.getSize - 1)).reverse.map
          (fun i => fix * 16 + nibAt v (i + 1)) ++
        [opc % 16 * 16 + nibAt v 0])

/-- `emitProgramBin` (asm.cpp:580-617) from running offset `off`,
returning the flat byte stream. -/
def emitProgramBin : ℕ → List Directive → Option (List ℕ)
  | _, [] => some []
  | off, d :: ds =>
    match emitDir off d with
    | none => none
    | some bs =>
      match emitProgramBin (off + bs.length) ds with
      | none => none
      | some rest => some (bs ++ rest)

/-- The byte offsets at which each directive's content begins (after any
alignment padding), as tracked by the layout pass and the emitters. -/
def layOffsets : ℕ → List Directive → List ℕ
  | _, [] => []
  | off, d :: ds =>
    let o1 := if d.isData then off + padAmt off else off
    o1 :: layOffsets (o1 + d.getSize) ds

/-- The running offset after laying out the whole list from `off`. -/
def layEnd : ℕ → List Directive → ℕ
  | off, [] => off
  | off, d :: ds =>
    let o1 := if d.isData then off + padAmt off else off
    layEnd (o1 + d.getSize) ds

/-! ## Parser (`Parser::parseProgram`, asm.cpp:438-513)

The parser is embedded over the token list the lexer produces; the end of
the file is the empty list (the lexer yields `END_OF_FILE` from there on).
The lexer's `identifier` member is updated whenever an alphabetic token is
read — including keywords — and `parseIdentifier` returns it without
checking the token kind, so the embedding threads that register (`sid`)
through the parse. -/

/-- The spelling an alphabetic token leaves in the lexer's `identifier`
field; `none` for tokens that do not touch it. -/
def tokSpell : Token → Option String
  | .NUMBER _ => none
  | .MINUS => none
  | .NONE => none
  | .END_OF_FILE => none
  | .IDENTIFIER s => some s
  | .DATA => some "DATA"
  | .PROC => some "PROC"
  | .FUNC => some "FUNC"
  | .LDAM => some "LDAM"
  | .LDBM => some "LDBM"
  | .STAM => some "STAM"
  | .LDAC => some "LDAC"
  | .LDBC => some "LDBC"
  | .LDAP => some "LDAP"
  | .LDAI => some "LDAI"
  | .LDBI => some "LDBI"
  | .STAI => some "STAI"
  | .BR => some "BR"
  | .BRZ => some "BRZ"
  | .BRN => some "BRN"
  | .BRB => some "BRB"
  | .SVC => some "SVC"
  | .ADD => some "ADD"
  | .SUB => some "SUB"
  | .OPR => some "OPR"

/-- Advance the lexer's `identifier` register past one consumed token. -/
def updSid (sid : String) (t : Token) : String :=
  (tokSpell t).getD sid

/-- The parse errors the assembler can raise: `unrecognised token`
(asm.cpp:499), `expected NUMBER` (asm.cpp:443 via 454/457), and the
`InstrOp` constructor's rejection of a bad OPR operand (asm.cpp:423). -/
inductive PErr where
  | unrecognisedToken
  | expectedNumber
  | unexpectedOprOperand
deriving DecidableEq, Repr

/-- Whether the token is one of the twelve addressed-opcode cases of
`parseDirective` (asm.cpp:479-490). -/
def isAddressed : Token → Bool
  | .LDAM => true
  | .LDBM => true
  | .STAM => true
  | .LDAC => true
  | .LDBC => true
  | .LDAI => true
  | .LDBI => true
  | .STAI => true
  | .LDAP => true
  | .BRN => true
  | .BR => true
  | .BRZ => true
  | _ => false

/-- `Parser::parseProgram` with `parseDirective`, `parseInteger` and
`parseIdentifier` inlined (asm.cpp:452-512).  `sid` is the lexer's
`identifier` register.  `parseInteger` accepts `MINUS NUMBER` or `NUMBER`
and otherwise raises `expectedNumber`; an addressed opcode whose next
token is an `IDENTIFIER` becomes an `InstrLabel`, otherwise its operand is
parsed as an integer; `OPR`'s operand must be one of the four legal
sub-opcodes; any other statement token is `unrecognisedToken`. -/
def parseProgram (sid : String) : List Token → Except PErr (List Directive)
  | [] => .ok []
  | t :: rest =>
    match t with
    | .END_OF_FILE => .ok []
    | .DATA =>
      match rest with
      | .MINUS :: .NUMBER n :: r =>
        (parseProgram sid r).map (fun ds => .data (-(n : ℤ)) :: ds)
      | .MINUS :: _ => .error .expectedNumber
      | .NUMBER n :: r =>
        (parseProgram sid r).map (fun ds => .data (n : ℤ) :: ds)
      | _ => .error .expectedNumber
    | .FUNC =>
      match rest with
      | [] => .ok [.func (updSid sid .FUNC)]
      | u :: r =>
        (parseProgram (updSid (updSid sid .FUNC) u) r).map
          (fun ds => .func (updSid (updSid sid .FUNC) u) :: ds)
    | .PROC =>
      match rest with
      | [] => .ok [.proc (updSid sid .PROC)]
      | u :: r =>
        (parseProgram (updSid (updSid sid .PROC) u) r).map
          (fun ds => .proc (updSid (updSid sid .PROC) u) :: ds)
    | .IDENTIFIER s =>
      (parseProgram s rest).map (fun ds => .label s 0 :: ds)
    | .OPR =>
      match rest with
      | [] => .error .unexpectedOprOperand
      | u :: r =>
        match tokenToOprInstr u with
        | some sub =>
          (parseProgram (updSid (updSid sid .OPR) u) r).map
            (fun ds => .instrOp sub :: ds)
        | none => .error .unexpectedOprOperand
    | tok =>
      if isAddressed tok then
        match rest with
        | .IDENTIFIER s :: r =>
          (parseProgram s r).map (fun ds => .instrLabel tok s 0 :: ds)
        | .MINUS :: .NUMBER n :: r =>
          (parseProgram (updSid sid tok) r).map
            (fun ds => .instrImm tok (-(n : ℤ)) :: ds)
        | .MINUS :: _ => .error .expectedNumber
        | .NUMBER n :: r =>
          (parseProgram (updSid sid tok) r).map
            (fun ds => .instrImm tok (n : ℤ) :: ds)
        | _ => .error .expectedNumber
      else .error .unrecognisedToken

/-- Whether the parse raised an error. -/
def isErr {α : Type} : Except PErr α → Bool
  | .error _ => true
  | .ok _ => false

/-- The error condition exactly as the claim states it: an error occurs
when (1) the token at statement position is not `DATA`, `FUNC`, `PROC`,
`IDENTIFIER`, `OPR` or an addressed opcode, (2) a `MINUS` token where a
signed integer is expected is not followed by a `NUMBER`, or (3) the
operand of `OPR` is not one of `BRB`, `ADD`, `SUB`, `SVC`.  A
signed-integer position holding neither `MINUS` nor `NUMBER` is *not*
among the claim's conditions, so the scan moves on without flagging it. -/
def claimErr : List Token → Bool
  | [] => false
  | t :: rest =>
    match t with
    | .END_OF_FILE => false
    | .DATA =>
      match rest with
      | .MINUS :: .NUMBER _ :: r => claimErr r
      | .MINUS :: _ => true
      | .NUMBER _ :: r => claimErr r
      | [] => false
      | _ :: r => claimErr r
    | .FUNC =>
      match rest with
      | [] => false
      | _ :: r => claimErr r
    | .PROC =>
      match rest with
      | [] => false
      | _ :: r => claimErr r
    | .IDENTIFIER _ => claimErr rest
    | .OPR =>
      match rest with
      | [] => true
      | u :: r => if (tokenToOprInstr u).isSome then claimErr r else true
    | tok =>
      if isAddressed tok then
        match rest with
        | .IDENTIFIER _ :: r => claimErr r
        | .MINUS :: .NUMBER _ :: r => claimErr r
        | .MINUS :: _ => true
        | .NUMBER _ :: r => claimErr r
        | [] => false
        | _ :: r => claimErr r
      else true

/-- The amended error condition: like `claimErr`, but a signed-integer
position holding neither `MINUS` nor `NUMBER` (including end of input) is
also an error, matching `parseInteger`'s `expectLast(Token::NUMBER)`. -/
def amendErr : List Token → Bool
  | [] => false
  | t :: rest =>
    match t with
    | .END_OF_FILE => false
    | .DATA =>
      match rest with
      | .MINUS :: .NUMBER _ :: r => amendErr r
      | .MINUS :: _ => true
      | .NUMBER _ :: r => amendErr r
      | _ => true
    | .FUNC =>
      match rest with
      | [] => false
      | _ :: r => amendErr r
    | .PROC =>
      match rest with
      | [] => false
      | _ :: r => amendErr r
    | .IDENTIFIER _ => amendErr rest
    | .OPR =>
      match rest with
      | [] => true
      | u :: r => if (tokenToOprInstr u).isSome then amendErr r else true
    | tok =>
      if isAddressed tok then
        match rest with
        | .IDENTIFIER _ :: r => amendErr r
        | .MINUS :: .NUMBER _ :: r => amendErr r
        | .MINUS :: _ => true
        | .NUMBER _ :: r => amendErr r
        | _ => true
      else true

/-! ## Simulator (`Processor`, sim.cpp)

Registers are 32-bit unsigned (`uint32_t`); the embedding keeps them as
naturals below `2^32`.  Memory is a word array of `MEMORY_SIZE_WORDS`
words, embedded as a function `ℕ → ℕ` whose reads and writes are
bounds-checked by `rdMem`/`wrMem`: the C++ `std::array` subscript performs
no check, so an index `≥ MEMORY_SIZE_WORDS` is undefined behaviour,
modelled as the `oob` error.  The host streams of `Util.hpp` (not among
the sources) are modelled from the spec: WRITE appends a (value, stream)
pair to an output list, READ takes the next byte from an input list. -/

def MEMORY_SIZE_WORDS : ℕ := 200000

def U32 : ℕ := 4294967296

/-- Simulator state: `pc`, `areg`, `breg`, `oreg`, `instr` as in
sim.cpp:19-23, the memory, the `running` flag and cycle counter, plus the
modelled I/O streams. -/
structure PState where
  pc : ℕ
  areg : ℕ
  breg : ℕ
  oreg : ℕ
  mem : ℕ → ℕ
  running : Bool
  cycles : ℕ
  inp : List ℕ
  out : List (ℕ × ℕ)

/-- Ways a simulator step can fail to produce a next state: out-of-bounds
memory indexing (undefined behaviour in the C++), or one of the
`runtime_error`s thrown by `run()`/`syscall()`. -/
inductive SimErr where
  | oob
  | invalidSyscall
  | invalidOpr
  | invalidInstr
deriving DecidableEq, Repr

/-- Bounds-checked memory read; the array holds `uint32_t` words, so the
value read is reduced to 32 bits. -/
def rdMem (m : ℕ → ℕ) (i : ℕ) : Option ℕ :=
  if i < MEMORY_SIZE_WORDS then some (m i % U32) else none

/-- Bounds-checked memory write. -/
def wrMem (m : ℕ → ℕ) (i v : ℕ) : Option (ℕ → ℕ) :=
  if i < MEMORY_SIZE_WORDS then some (fun j => if j = i then v else m j) else none

/-- The fetched byte
`(memory[pc >> 2] >> ((pc & 0x3) << 3)) & 0xFF` (sim.cpp:169). -/
def fetchByte (s : PState) : Option ℕ :=
  (rdMem s.mem (s.pc / 4)).map (fun w => w / 2 ^ (s.pc % 4 * 8) % 256)

/-- The operand register as accumulated by `oreg = oreg | (instr & 0xF)`
(sim.cpp:171) — the value every opcode sees when it dispatches. -/
def fetchAcc (s : PState) : Option ℕ :=
  (fetchByte s).map (fun b => s.oreg ||| b % 16)

/-- `Processor::syscall` (sim.cpp:150-165), dispatching on `areg`.
Modelled from the spec for the parts living in `Hex.hpp`/`Util.hpp`:
syscall numbers follow the spec §4.8 listing order EXIT=0, WRITE=1,
READ=2 (the `exit0.S` scenario's `LDAC 0; OPR SVC` exiting confirms
EXIT=0), and the host streams are the `inp`/`out` lists. -/
def syscall (s : PState) (pc1 : ℕ) : Except SimErr PState :=
  let sp := s.mem 1 % U32 / 4
  match s.areg with
  | 0 => .ok { s with pc := pc1, running := false, oreg := 0, cycles := s.cycles + 1 }
  | 1 =>
    match rdMem s.mem (sp + 2), rdMem s.mem (sp + 3) with
    | some v, some chan =>
      .ok { s with pc := pc1, out := s.out ++ [(v, chan)], oreg := 0,
                   cycles := s.cycles + 1 }
    | _, _ => .error .oob
  | 2 =>
    match rdMem s.mem (sp + 2) with
    | some _ =>
      match wrMem s.mem (sp + 1) (s.inp.headD 0 % 256) with
      | some m' =>
        .ok { s with pc := pc1, mem := m', inp := s.inp.tail, oreg := 0,
                     cycles := s.cycles + 1 }
      | none => .error .oob
    | none => .error .oob
  | _ => .error .invalidSyscall

/-- The dispatch `switch (instrEnum)` of `Processor::run`
(sim.cpp:176-259), after the fetch, increment and accumulate steps:
`pc1` is the incremented pc, `acc` the accumulated `oreg`, `op` the high
nibble of the fetched byte.  Decoding uses the numbering of `instrOpc`. -/
def dispatch (s : PState) (pc1 acc op : ℕ) : Except SimErr PState :=
  match op with
  | 0 =>
    match rdMem s.mem acc with
    | some w => .ok { s with pc := pc1, areg := w, oreg := 0, cycles := s.cycles + 1 }
    | none => .error .oob
  | 1 =>
    match rdMem s.mem acc with
    | some w => .ok { s with pc := pc1, breg := w, oreg := 0, cycles := s.cycles + 1 }
    | none => .error .oob
  | 11 =>
    match wrMem s.mem acc s.areg with
    | some m' => .ok { s with pc := pc1, mem := m', oreg := 0, cycles := s.cycles + 1 }
    | none => .error .oob
  | 2 => .ok { s with pc := pc1, areg := acc, oreg := 0, cycles := s.cycles + 1 }
  | 3 => .ok { s with pc := pc1, breg := acc, oreg := 0, cycles := s.cycles + 1 }
  | 4 =>
    .ok { s with pc := pc1, areg := (pc1 + acc) % U32, oreg := 0,
                 cycles := s.cycles + 1 }
  | 5 =>
    match rdMem s.mem ((s.areg / 4 + acc) % U32) with
    | some w => .ok { s with pc := pc1, areg := w, oreg := 0, cycles := s.cycles + 1 }
    | none => .error .oob
  | 6 =>
    match rdMem s.mem ((s.breg / 4 + acc) % U32) with
    | some w => .ok { s with pc := pc1, breg := w, oreg := 0, cycles := s.cycles + 1 }
    | none => .error .oob
  | 7 =>
    match wrMem s.mem ((s.breg / 4 + acc) % U32) s.areg with
    | some m' => .ok { s with pc := pc1, mem := m', oreg := 0, cycles := s.cycles + 1 }
    | none => .error .oob
  | 8 =>
    .ok { s with pc := (pc1 + acc) % U32, oreg := 0, cycles := s.cycles + 1 }
  | 9 =>
    .ok { s with pc := if s.areg = 0 then (pc1 + acc) % U32 else pc1,
                 oreg := 0, cycles := s.cycles + 1 }
  | 10 =>
    .ok { s with pc := if 2 ^ 31 ≤ s.areg then (pc1 + acc) % U32 else pc1,
                 oreg := 0, cycles := s.cycles + 1 }
  | 13 =>
    .ok { s with pc := pc1, oreg := acc * 16 % U32, cycles := s.cycles + 1 }
  | 12 =>
    .ok { s with pc := pc1, oreg := 4294967040 ||| acc * 16 % U32,
                 cycles := s.cycles + 1 }
  | 15 =>
    match acc with
    | 0 => .ok { s with pc := s.breg, oreg := 0, cycles := s.cycles + 1 }
    | 2 =>
      .ok { s with pc := pc1, areg := (s.areg + s.breg) % U32, oreg := 0,
                   cycles := s.cycles + 1 }
    | 3 =>
      .ok { s with pc := pc1, areg := (s.areg + (U32 - s.breg % U32)) % U32,
                   oreg := 0, cycles := s.cycles + 1 }
    | 1 => syscall s pc1
    | _ => .error .invalidOpr
  | _ => .error .invalidInstr

/-- One iteration of the `while (running)` body of `Processor::run`
(sim.cpp:167-262): fetch, increment `pc`, accumulate `oreg`, dispatch. -/
def step (s : PState) : Except SimErr PState :=
  match fetchByte s with
  | none => .error .oob
  | some instr =>
    dispatch s ((s.pc + 1) % U32) (s.oreg ||| instr % 16) (instr / 16 % 16)

/-- `n` iterations of the `while (running)` loop: stop early (as the loop
does) once `running` is false. -/
def stepN : ℕ → PState → Except SimErr PState
  | 0, s => .ok s
  | n + 1, s =>
    if s.running then
      match step s with
      | .ok s' => stepN n s'
      | .error e => .error e
    else .ok s

/-- `Processor::Processor` (sim.cpp:41-42) followed by `load`: the
constructor initialises only `running`, `tracing` and `cycles`; `pc`,
`areg`, `breg`, `oreg` and the memory words beyond the loaded file keep
indeterminate values, so they are parameters of the embedded initial
state. -/
def initState (pc areg breg oreg : ℕ) (mem : ℕ → ℕ) : PState :=
  { pc := pc % U32, areg := areg % U32, breg := breg % U32, oreg := oreg % U32,
    mem := mem, running := true, cycles := 0, inp := [], out := [] }

/-- `Processor::load` (sim.cpp:46-66): the file's bytes land in the low
bytes of the word array; bytes beyond the file keep the indeterminate
background `bg`. -/
def loadMem (bytes : List ℕ) (bg : ℕ → ℕ) : ℕ → ℕ :=
  fun i =>
    let b := fun j => if j < bytes.length then bytes.getD j 0 else bg j % 256
    b (4 * i) + 256 * b (4 * i + 1) + 65536 * b (4 * i + 2) +
      16777216 * b (4 * i + 3)

/-- The registers of the state a step produces, for concrete evaluation. -/
def stepRegs (s : PState) : Option (ℕ × ℕ × ℕ × ℕ) :=
  match step s with
  | .ok s' => some (s'.pc, s'.areg, s'.breg, s'.oreg)
  | .error _ => none

/-- The registers after `n` steps. -/
def stepNRegs (n : ℕ) (s : PState) : Option (ℕ × ℕ × ℕ × ℕ) :=
  match stepN n s with
  | .ok s' => some (s'.pc, s'.areg, s'.breg, s'.oreg)
  | .error _ => none

/-! ## Spec-side definitions

These follow the specification's words, for comparison with the
definitions embedded from the source. -/

theorem exists_lt_pow16 (x : ℕ) : ∃ n, x < 16 ^ (n + 1) :=
  ⟨x, lt_of_lt_of_le (Nat.lt_pow_self (by norm_num) x)
    (Nat.pow_le_pow_right (by norm_num) (Nat.le_succ x))⟩

/-- The spec's nibble count of a nonnegative value: `nibbles(0) = 1`, and
for `x > 0` the smallest `n ≥ 1` with `x < 16^n` (realised as one more
than the least `k` with `x < 16^(k+1)`). -/
def nibblesForNonneg (x : ℕ) : ℕ :=
  if x = 0 then 1 else Nat.find (exists_lt_pow16 x) + 1

/-- The spec's `nibbles(v)` (spec §4.3, quoted by claim C3):
`nibbles(0) = 1`; for `v > 0` the smallest `n ≥ 1` with `v < 16^n`; for
`v < 0` that rule applied to the bitwise complement `~v = -v - 1`. -/
def nibblesSpec (v : ℤ) : ℕ :=
  if v < 0 then nibblesForNonneg (-v - 1).toNat else nibblesForNonneg v.toNat

/-! ## Concrete example programs and states used by the claim theorems -/

/-- A label immediately followed by a branch back to it: `l1: BR l1`. -/
def exC1 : List Directive := [.label "l1" 0, .instrLabel .BR "l1" 0]

/-- The directive list `resolveLabels` converges to on `exC1`. -/
def exC1res : List Directive := [.label "l1" 0, .instrLabel .BR "l1" (-1)]

/-- `BR foo` with no label `foo` anywhere (the `error_unknown_label`
scenario of the repository's test suite). -/
def exC2 : List Directive := [.instrLabel .BR "foo" 0]

/-- The two bytes `LDAC -1` assembles to: `NFIX|F`, `LDAC|F`. -/
def exC4bytes : List ℕ := [207, 47]

/-- Simulator started on the `LDAC -1` encoding with zeroed registers and
zero-filled memory background. -/
def sC4 : PState := initState 0 0 0 0 (loadMem exC4bytes (fun _ => 0))

/-- A one-byte program holding `OPR` with low nibble `SVC`. -/
def sSVC : PState := initState 0 0 0 0 (loadMem [241] (fun _ => 0))

/-- A one-byte program holding `LDAC` with low nibble 0. -/
def sLDAC : PState := initState 0 0 0 0 (loadMem [32] (fun _ => 0))

/-- The state `step` produces from `sLDAC`. -/
def sLDACnext : PState :=
  match step sLDAC with
  | .ok s' => s'
  | .error _ => sLDAC

/-- `PFIX 3; PFIX 0; PFIX D; PFIX 4; LDAM 0`: accumulates
`oreg = 0x30D40 = 200000 = MEMORY_SIZE_WORDS` and then indexes memory
with it. -/
def exC9bytes : List ℕ := [211, 208, 221, 212, 0]

/-- Simulator started on `exC9bytes` with zeroed registers. -/
def sC9 : PState := initState 0 0 0 0 (loadMem exC9bytes (fun _ => 0))

/-- The same loaded memory started with `pc = 1` instead of `pc = 0`. -/
def sC9pc1 : PState := initState 1 0 0 0 (loadMem exC9bytes (fun _ => 0))

/-- `dataAligned off ds`: walking the list from offset `off` with the
layout/emitter advance rule, every `Data` directive's content begins at a
multiple of 4. -/
def dataAligned : ℕ → List Directive → Prop
  | _, [] => True
  | off, d :: ds =>
    let o1 := if d.isData then off + padAmt off else off
    (d.isData = true → o1 % 4 = 0) ∧ dataAligned (o1 + d.getSize) ds

/-- Concrete program for the C6 witness. -/
def exC6 : List Directive := [.instrOp .SVC, .data 5, .instrImm .LDAC 0]

/-! ## Helper lemmas -/

theorem nibblesForNonneg_small {n : ℕ} (h : n < 16) : nibblesForNonneg n = 1 := by
  rw [nibblesForNonneg]
  by_cases hz : n = 0
  · simp [hz]
  · rw [if_neg hz]
    have : Nat.find (exists_lt_pow16 n) = 0 := by
      rw [Nat.find_eq_zero]
      simpa using h
    omega

theorem nibblesForNonneg_step {n : ℕ} (h : ¬ n < 16) :
    nibblesForNonneg n = nibblesForNonneg (n / 16) + 1 := by
  have h16 : 16 ≤ n := by omega
  have hq : n / 16 ≠ 0 := by
    have := Nat.le_div_iff_mul_le (k := 16) (by norm_num) |>.2 (by omega : 1 * 16 ≤ n)
    omega
  rw [nibblesForNonneg, nibblesForNonneg, if_neg hq, if_neg (by omega : ¬ n = 0)]
  have hfind : Nat.find (exists_lt_pow16 n) = Nat.find (exists_lt_pow16 (n / 16)) + 1 := by
    rw [Nat.find_eq_iff]
    constructor
    · have hspec := Nat.find_spec (exists_lt_pow16 (n / 16))
      have : n < 16 ^ (Nat.find (exists_lt_pow16 (n / 16)) + 1) * 16 :=
        (Nat.div_lt_iff_lt_mul (by norm_num : 0 < 16)).1 hspec
      calc n < 16 ^ (Nat.find (exists_lt_pow16 (n / 16)) + 1) * 16 := this
        _ = 16 ^ (Nat.find (exists_lt_pow16 (n / 16)) + 1 + 1) := by ring
    · intro k hk
      cases k with
      | zero =>
        intro hcon
        norm_num at hcon
        omega
      | succ j =>
        have hj : j < Nat.find (exists_lt_pow16 (n / 16)) := by omega
        have hmin := Nat.find_min (exists_lt_pow16 (n / 16)) hj
        intro hcon
        apply hmin
        rw [Nat.div_lt_iff_lt_mul (by norm_num : 0 < 16)]
        calc n < 16 ^ (j + 1 + 1) := hcon
          _ = 16 ^ (j + 1) * 16 := by ring
  omega

theorem nibblesNatGo_spec : ∀ fuel n, n ≤ fuel → nibblesNatGo fuel n = nibblesForNonneg n := by
  intro fuel
  induction fuel with
  | zero =>
    intro n hn
    have : n = 0 := by omega
    subst this
    simp [nibblesNatGo, nibblesForNonneg]
  | succ f ih =>
    intro n hn
    rw [nibblesNatGo]
    by_cases h16 : n < 16
    · rw [if_pos h16, nibblesForNonneg_small h16]
    · rw [if_neg h16, nibblesForNonneg_step h16]
      have hdiv : n / 16 ≤ f := by
        have : n / 16 < n := Nat.div_lt_self (by omega) (by norm_num)
        omega
      rw [ih _ hdiv]

theorem nibblesNat_eq (x : ℕ) : nibblesNat x = nibblesForNonneg x :=
  nibblesNatGo_spec x x le_rfl

theorem padAmt_aligns (off : ℕ) : (off + padAmt off) % 4 = 0 := by
  rw [padAmt]
  by_cases h : off % 4 = 0
  · simp [h]
  · rw [if_neg h]
    omega

theorem dataAligned_holds (ds : List Directive) : ∀ off, dataAligned off ds := by
  induction ds with
  | nil => intro off; trivial
  | cons d ds ih =>
    intro off
    refine ⟨?_, ih _⟩
    intro hd
    simp only [hd, if_pos]
    exact padAmt_aligns off

theorem Directive.getSize_data (v : ℤ) : (Directive.data v).getSize = 4 := rfl

theorem emitDir_length {off : ℕ} {d : Directive} {bs : List ℕ}
    (h : emitDir off d = some bs) :
    bs.length = (if d.isData then padAmt off else 0) + d.getSize := by
  rw [emitDir] at h
  by_cases hd : d.isData
  · rw [if_pos hd] at h
    cases h
    have h4 : d.getSize = 4 := by
      cases d <;> first | rfl | simp [Directive.isData] at hd
    simp [leBytes4, hd, h4]
  · rw [if_neg hd] at h
    simp only [Bool.not_eq_true] at hd
    by_cases hs : d.getSize = 0
    · rw [if_pos hs] at h
      cases h
      simp [hd, hs]
    · rw [if_neg hs] at h
      rcases htk : d.tokenOpc with _ | opc
      · rw [htk] at h; cases h
      · rw [htk] at h
        simp only at h
        cases h
        simp only [hd, List.length_append, List.length_map, List.length_reverse,
          List.length_range, List.length_cons, List.length_nil, Bool.false_eq_true,
          if_false]
        omega

theorem emitProgramBin_length (ds : List Directive) :
    ∀ off bs, emitProgramBin off ds = some bs → off + bs.length = layEnd off ds := by
  induction ds with
  | nil =>
    intro off bs h
    rw [emitProgramBin] at h
    cases h
    rfl
  | cons d ds ih =>
    intro off bs h
    rw [emitProgramBin] at h
    rcases h1 : emitDir off d with _ | b1
    · rw [h1] at h; cases h
    · rw [h1] at h
      dsimp only at h
      rcases h2 : emitProgramBin (off + b1.length) ds with _ | b2
      · rw [h2] at h; cases h
      · rw [h2] at h
        cases h
        have hlen := emitDir_length h1
        have hrec := ih (off + b1.length) b2 h2
        rw [layEnd]
        have : (if d.isData then off + padAmt off else off) + d.getSize
            = off + b1.length := by
          by_cases hd : d.isData <;> simp [hd] at hlen ⊢ <;> omega
        rw [this]
        simpa [Nat.add_assoc] using hrec

theorem resolvePassGo_total (lm : String → Option ℕ) (rest : List Directive) :
    ∀ done off out total, resolvePassGo lm done off rest = some (out, total) →
      ∃ ds2, out = done ++ ds2 ∧ total = layEnd off ds2 := by
  induction rest with
  | nil =>
    intro done off out total h
    rw [resolvePassGo] at h
    cases h
    exact ⟨[], by simp, rfl⟩
  | cons d rest ih =>
    intro done off out total h
    cases d with
    | data v =>
      rw [resolvePassGo] at h
      rcases ih _ _ _ _ h with ⟨ds2, hout, htot⟩
      refine ⟨.data v :: ds2, by simpa using hout, ?_⟩
      rw [layEnd]
      simpa [Directive.isData, Directive.getSize, Nat.add_assoc] using htot
    | label n lv =>
      rw [resolvePassGo] at h
      rcases ih _ _ _ _ h with ⟨ds2, hout, htot⟩
      exact ⟨.label n (off : ℤ) :: ds2, by simpa using hout,
        by rw [layEnd]; simpa [Directive.isData, Directive.getSize] using htot⟩
    | func n =>
      rw [resolvePassGo] at h
      rcases ih _ _ _ _ h with ⟨ds2, hout, htot⟩
      exact ⟨.func n :: ds2, by simpa using hout,
        by rw [layEnd]; simpa [Directive.isData, Directive.getSize] using htot⟩
    | proc n =>
      rw [resolvePassGo] at h
      rcases ih _ _ _ _ h with ⟨ds2, hout, htot⟩
      exact ⟨.proc n :: ds2, by simpa using hout,
        by rw [layEnd]; simpa [Directive.isData, Directive.getSize] using htot⟩
    | instrImm tk v =>
      rw [resolvePassGo] at h
      rcases ih _ _ _ _ h with ⟨ds2, hout, htot⟩
      exact ⟨.instrImm tk v :: ds2, by simpa using hout,
        by rw [layEnd]; simpa [Directive.isData] using htot⟩
    | instrOp sub =>
      rw [resolvePassGo] at h
      rcases ih _ _ _ _ h with ⟨ds2, hout, htot⟩
      exact ⟨.instrOp sub :: ds2, by simpa using hout,
        by rw [layEnd]; simpa [Directive.isData] using htot⟩
    | instrLabel tk n lv =>
      rw [resolvePassGo] at h
      rcases hlm : lm n with _ | j
      · rw [hlm] at h; cases h
      · rw [hlm] at h
        dsimp only at h
        rcases hget : (done ++ .instrLabel tk n lv :: rest).get? j with _ | d2
        · rw [hget] at h; cases h
        · rw [hget] at h
          cases d2 with
          | label n2 lv2 =>
            simp only at h
            rcases ih _ _ _ _ h with ⟨ds2, hout, htot⟩
            refine ⟨.instrLabel tk n (lv2 - (off : ℤ) - (instrLen lv2 (off : ℤ) : ℤ)) :: ds2,
              by simpa using hout, ?_⟩
            rw [layEnd]
            simpa [Directive.isData] using htot
          | data v2 => cases h
          | func n2 => cases h
          | proc n2 => cases h
          | instrImm tk2 v2 => cases h
          | instrLabel tk2 n2 lv2 => cases h
          | instrOp sub2 => cases h

theorem numNibbles_eq_spec (v : ℤ) : numNibbles v = nibblesSpec v := by
  rw [numNibbles, nibblesSpec]
  by_cases h0 : v = 0
  · simp [h0, nibblesForNonneg]
  · rw [if_neg h0]
    by_cases hn : v < 0
    · rw [if_pos hn, if_pos hn, nibblesNat_eq]
    · rw [if_neg hn, if_neg hn, nibblesNat_eq]

end Hex

namespace Hex

theorem isErr_map {α β : Type} (f : α → β) (e : Except PErr α) :
    isErr (e.map f) = isErr e := by
  cases e <;> rfl

theorem isErr_error {α : Type} (e : PErr) : isErr (.error e : Except PErr α) = true := rfl

theorem isErr_ok {α : Type} (x : α) : isErr (.ok x : Except PErr α) = false := rfl

/-- Claim C8 (amended): the parser raises an error exactly when the
statement-position token is not `DATA`/`FUNC`/`PROC`/`IDENTIFIER`/`OPR`/an
addressed opcode, or the operand of `OPR` is not one of the four legal
sub-opcodes, or a signed-integer operand position does not hold `NUMBER`
or `MINUS NUMBER` — in particular a `MINUS` not followed by a `NUMBER`,
but also a position holding neither `MINUS` nor `NUMBER` (the case the
claim as stated omits). -/
theorem c8_parser_errors_amended (sid : String) (toks : List Token) :
    isErr (parseProgram sid toks) = amendErr toks := by
  induction sid, toks using parseProgram.induct <;>
    first
    | (simp_all [parseProgram, amendErr, isErr_map, isErr_error, isErr_ok, isAddressed]
       done)
    | (rename Token => tok
       cases tok <;>
         first
         | (rw [parseProgram.eq_def, amendErr.eq_def]
            simp [isErr, isAddressed]
            done)
         | simp_all [parseProgram, amendErr, isErr_map, isErr_error, isErr_ok, isAddressed])

end Hex

namespace Hex

theorem syscall_oreg {s : PState} {pc1 : ℕ} {s' : PState}
    (h : syscall s pc1 = .ok s') : s'.oreg = 0 := by
  rw [syscall] at h
  repeat' split at h
  all_goals cases h
  all_goals rfl

theorem dispatch_oreg {s : PState} {pc1 acc op : ℕ} {s' : PState}
    (h : dispatch s pc1 acc op = .ok s') :
    (op = 13 → s'.oreg = acc * 16 % U32) ∧
    (op = 12 → s'.oreg = 4294967040 ||| acc * 16 % U32) ∧
    (op ≠ 13 → op ≠ 12 → s'.oreg = 0) := by
  rw [dispatch.eq_def] at h
  repeat' split at h
  all_goals try cases h
  all_goals refine ⟨?_, ?_, ?_⟩ <;> intros <;>
    first
    | rfl
    | omega
    | exact syscall_oreg h

end Hex

namespace Hex

/-- Claim C1 (code bug): on the program `l1: BR l1` the layout loop
converges (fuel 10 is ample) with resolved displacement `-1` stored on the
`InstrLabel`, whose own offset is 0, whose `getSize()` is 2 and whose
target offset is 0; the claimed invariant demands
`target − (own_offset + own_size) = 0 − (0 + 2) = −2 ≠ −1`.  `instrLen`
picks length 1 for the displacement `-1` while `getSize` needs 2 bytes
(NFIX prefix), so the emitted branch lands one byte past the label. -/
theorem c1_layout_displacement_bug :
    resolveLabels 10 exC1 = some exC1res ∧
    layOffsets 0 exC1res = [0, 0] ∧
    (Directive.instrLabel Token.BR "l1" (-1)).getValue = -1 ∧
    (Directive.instrLabel Token.BR "l1" (-1)).getSize = 2 ∧
    (0 : ℤ) - (0 + ((Directive.instrLabel Token.BR "l1" (-1)).getSize : ℤ))
      ≠ (Directive.instrLabel Token.BR "l1" (-1)).getValue := by
  decide

/-- Claim C2 (code bug): on `BR foo` with no label `foo`, `createLabelMap`
has no entry for `"foo"`, and `resolveLabels` hits the undefined behaviour
of `labelMap["foo"]->getValue()` (operator[] default-inserts a null
`Label*`), modelled as `none`: no fatal error is reported, in contrast to
the spec and to the repository's own `error_unknown_label` test. -/
theorem c2_unknown_label_bug :
    createLabelMap exC2 "foo" = none ∧ resolveLabels 10 exC2 = none := by
  decide

/-- Claim C3: for every integer `v` (in particular every 32-bit one), the
size of an `InstrImm` with immediate `v` equals the spec's `nibbles(v)`
except that a negative `v` with `nibbles(v) = 1` gets size 2; and for
`v > 0`, `nibblesSpec v` really is the smallest `n ≥ 1` with `v < 16^n`
(for `v < 0` the rule is applied to `~v` by definition of
`nibblesSpec`). -/
theorem c3_instrImm_size (tk : Token) (v : ℤ) :
    (Directive.instrImm tk v).getSize
        = (if v < 0 ∧ nibblesSpec v = 1 then 2 else nibblesSpec v) ∧
    (0 < v → (v < 16 ^ nibblesSpec v ∧
      ∀ m : ℕ, 1 ≤ m → v < 16 ^ m → nibblesSpec v ≤ m)) := by
  constructor
  · simp only [Directive.getSize, numNibbles_eq_spec]
  · intro hv
    have hvn : ¬ v < 0 := by omega
    have hxne : v.toNat ≠ 0 := by omega
    have hcast : (v.toNat : ℤ) = v := Int.toNat_of_nonneg (by omega)
    rw [nibblesSpec, if_neg hvn, nibblesForNonneg, if_neg hxne]
    constructor
    · have hspec := Nat.find_spec (exists_lt_pow16 v.toNat)
      calc v = (v.toNat : ℤ) := hcast.symm
        _ < ((16 ^ (Nat.find (exists_lt_pow16 v.toNat) + 1) : ℕ) : ℤ) := by
            exact_mod_cast hspec
        _ = 16 ^ (Nat.find (exists_lt_pow16 v.toNat) + 1) := by push_cast; ring
    · intro m hm hvm
      have hxm : v.toNat < 16 ^ m := by
        have : ((16 ^ m : ℕ) : ℤ) = 16 ^ m := by push_cast; ring
        omega
      have hfind : Nat.find (exists_lt_pow16 v.toNat) ≤ m - 1 :=
        Nat.find_min' _ (by rw [Nat.sub_add_cancel hm]; exact hxm)
      omega

/-- Witness for C3 at `v = 100`. -/
theorem c3_instrImm_size_witness :
    (Directive.instrImm Token.LDAC 100).getSize
        = (if (100 : ℤ) < 0 ∧ nibblesSpec 100 = 1 then 2 else nibblesSpec 100) ∧
    ((100 : ℤ) < 16 ^ nibblesSpec 100 ∧
      ∀ m : ℕ, 1 ≤ m → (100 : ℤ) < 16 ^ m → nibblesSpec 100 ≤ m) :=
  ⟨(c3_instrImm_size Token.LDAC 100).1,
   (c3_instrImm_size Token.LDAC 100).2 (by norm_num)⟩

/-- Claim C4: the encoding spot-checks.  `LDAC 0` emits the single byte
`LDAC<<4 | 0`; `LDAC 16` emits `PFIX|1` then `LDAC|0`; `LDAC -1` emits
`NFIX|F` then `LDAC|F`; and running the simulator on those two bytes, the
accumulated `oreg` at the `LDAC` dispatch is `0xFFFFFFFF = 4294967295`,
which `LDAC` copies into `areg` and then clears. -/
theorem c4_encoding_spot_check :
    emitProgramBin 0 [.instrImm .LDAC 0] = some [instrOpc .LDAC * 16 + 0] ∧
    emitProgramBin 0 [.instrImm .LDAC 16]
      = some [instrOpc .PFIX * 16 + 1, instrOpc .LDAC * 16 + 0] ∧
    emitProgramBin 0 [.instrImm .LDAC (-1)]
      = some [instrOpc .NFIX * 16 + 15, instrOpc .LDAC * 16 + 15] ∧
    (stepN 1 sC4).toOption.bind fetchAcc = some 4294967295 ∧
    stepNRegs 2 sC4 = some (2, 4294967295, 0, 0) := by
  decide

/-- Claim C5 (counterexample): executing `OPR` with sub-opcode `SVC`
(accumulated `oreg = oprInstrOpc .SVC = 1`, `areg = 0` selecting EXIT)
leaves `oreg = 0` after the step — the `oreg = 0` after the inner OPR
switch (sim.cpp:255) runs for SVC too — whereas the claim says OPR-SVC
leaves `oreg` uncleared (here, equal to 1). -/
theorem c5_oreg_svc_counterexample :
    fetchAcc sSVC = some (oprInstrOpc .SVC) ∧
    stepRegs sSVC = some (1, 0, 0, 0) ∧
    oprInstrOpc .SVC ≠ 0 := by
  decide

/-- Claim C5 (amended): after every successful simulator step, `oreg` is 0
unless the opcode is PFIX (which leaves the accumulated `oreg` shifted
left 4, mod 2^32) or NFIX (which leaves `0xFFFFFF00` OR-ed with that
shift); in particular OPR-SVC also clears `oreg`. -/
theorem c5_oreg_clearing (s s' : PState) (b : ℕ)
    (hf : fetchByte s = some b) (hs : step s = .ok s') :
    (b / 16 % 16 = 13 → s'.oreg = (s.oreg ||| b % 16) * 16 % U32) ∧
    (b / 16 % 16 = 12 → s'.oreg = 4294967040 ||| (s.oreg ||| b % 16) * 16 % U32) ∧
    (b / 16 % 16 ≠ 13 → b / 16 % 16 ≠ 12 → s'.oreg = 0) := by
  rw [step, hf] at hs
  exact dispatch_oreg hs

/-- Witness for C5 on the one-byte program `LDAC 0`. -/
theorem c5_oreg_clearing_witness :
    fetchByte sLDAC = some 32 ∧ sLDACnext.oreg = 0 := by
  refine ⟨rfl, ?_⟩
  have h : step sLDAC = .ok sLDACnext := rfl
  exact (c5_oreg_clearing sLDAC sLDACnext 32 rfl h).2.2 (by decide) (by decide)

/-- Claim C6: `Data` contents always begin at a multiple of 4: the
padding inserted when the running offset is misaligned is exactly
`4 − offset mod 4` zero bytes, the emitter writes exactly those zero
bytes, the emitter's running offsets agree with the layout advance
(`layEnd`), and each layout pass's final `byteOffset` is the layout
advance over its output directives, so layout and emission agree. -/
theorem c6_data_alignment :
    (∀ (off : ℕ) (ds : List Directive), dataAligned off ds) ∧
    (∀ off : ℕ, off % 4 ≠ 0 → padAmt off = 4 - off % 4) ∧
    (∀ (off : ℕ) (v : ℤ),
      emitDir off (.data v) = some (List.replicate (padAmt off) 0 ++ leBytes4 v)) ∧
    (∀ (ds : List Directive) (off : ℕ) (bs : List ℕ),
      emitProgramBin off ds = some bs → off + bs.length = layEnd off ds) ∧
    (∀ (lm : String → Option ℕ) (prog out : List Directive) (total : ℕ),
      resolvePass lm prog = some (out, total) → total = layEnd 0 out) := by
  refine ⟨?_, ?_, ?_, ?_, ?_⟩
  · intro off ds
    exact dataAligned_holds ds off
  · intro off h
    rw [padAmt, if_neg h]
  · intro off v
    rfl
  · exact fun ds off bs h => emitProgramBin_length ds off bs h
  · intro lm prog out total h
    rcases resolvePassGo_total lm prog [] 0 out total h with ⟨ds2, hout, htot⟩
    simp only [List.nil_append] at hout
    rw [hout]
    exact htot

/-- Witness for C6 on a program with a misaligned `Data`: one `OPR SVC`
byte, then `DATA 5` (3 zero padding bytes plus the word), then `LDAC 0`. -/
theorem c6_data_alignment_witness :
    0 + ([241, 0, 0, 0, 5, 0, 0, 0, 32] : List ℕ).length = layEnd 0 exC6 ∧
    9 = layEnd 0 exC6 :=
  ⟨c6_data_alignment.2.2.2.1 exC6 0 [241, 0, 0, 0, 5, 0, 0, 0, 32] (by decide),
   c6_data_alignment.2.2.2.2 (createLabelMap exC6) exC6 exC6 9 (by decide)⟩

/-- Claim C8 (counterexample): on the token stream `BR NONE` (source
`BR .`) the parser raises `expectedNumber`, but none of the claim's three
conditions holds — the statement token `BR` is an addressed opcode, no
`MINUS` occurs, and no `OPR` occurs — so the claimed "exactly when" is
false. -/
theorem c8_parser_error_counterexample :
    ¬ (isErr (parseProgram "" [Token.BR, Token.NONE]) = true ↔
        claimErr [Token.BR, Token.NONE] = true) := by
  decide

/-- Claim C9: memory indexing is not bounds-checked, so there are loaded
programs whose execution indexes outside the memory array: after
`PFIX 3; PFIX 0; PFIX D; PFIX 4` the accumulated `oreg` is exactly
`MEMORY_SIZE_WORDS = 200000`, and the following `LDAM` reads
`memory[200000]`, one past the array — the total embedding returns the
out-of-bounds error where the C++ has undefined behaviour. -/
theorem c9_unchecked_memory_access :
    stepNRegs 4 sC9 = some (4, 0, 0, MEMORY_SIZE_WORDS) ∧
    stepN 5 sC9 = .error .oob :=
  ⟨by decide, rfl⟩

/-- Claim C10: the constructor establishes only `running`, `tracing` and
`cycles`; `pc`, `areg`, `breg`, `oreg` and the unloaded memory are free
parameters of the embedded initial state, and the execution genuinely
depends on them: the same loaded memory stepped from `pc = 0` and from
`pc = 1` produces different register states, so a start at byte address 0
is not established by the code. -/
theorem c10_start_state_unspecified :
    (∀ pc areg breg oreg mem,
      (initState pc areg breg oreg mem).running = true ∧
      (initState pc areg breg oreg mem).cycles = 0 ∧
      (initState pc areg breg oreg mem).pc = pc % U32 ∧
      (initState pc areg breg oreg mem).areg = areg % U32 ∧
      (initState pc areg breg oreg mem).breg = breg % U32 ∧
      (initState pc areg breg oreg mem).oreg = oreg % U32 ∧
      (initState pc areg breg oreg mem).mem = mem) ∧
    stepRegs sC9 ≠ stepRegs sC9pc1 :=
  ⟨fun _ _ _ _ _ => ⟨rfl, rfl, rfl, rfl, rfl, rfl, rfl⟩, by decide⟩

end Hex
